import Mathlib

/-!
Verification of the Black–Scholes / Monte Carlo option pricer.

The Python sources are shallowly embedded over the real numbers:

* `pricer_project/models/black_scholes.py` — analytical pricing and Greeks,
  embedded as real-valued functions (`d1`, `d2`, `call_price`, `put_price`,
  `black_scholes_price`, `delta`, `gamma`, `vega`, `theta`, `rho`).
  Python `math.erf` is embedded as the Gauss error function defined by its
  integral.  Python runtime errors (math domain error, division by zero) are
  modelled by an `Except` variant of the same functions.
* `pricer_project/models/monte_carlo.py` — the simulator and estimator.
  NumPy's legacy global generator is modelled by an explicit global state
  `NpGlobalState` (current seed and stream position) threaded through the
  functions; the standard-normal stream itself is abstracted as a function
  `randn : seed → index → draw`.
* `pricer_project/interface/stats_analysis.py` — the convergence comparison.
-/

namespace Pricer

open Real

/-- The Gauss error function, as computed by Python `math.erf`
(exact real semantics). -/
noncomputable def erf (x : ℝ) : ℝ :=
  (2 / Real.sqrt Real.pi) * ∫ t in (0:ℝ)..x, Real.exp (-t ^ 2)

/-- `OptionParams` from `black_scholes.py` (frozen dataclass). -/
structure OptionParams where
  S : ℝ
  K : ℝ
  r : ℝ
  q : ℝ
  sigma : ℝ
  T : ℝ

/-- `std_norm_cdf` from `black_scholes.py`:
`0.5 * (1.0 + erf(x / sqrt(2.0)))`. -/
noncomputable def std_norm_cdf (x : ℝ) : ℝ :=
  0.5 * (1.0 + erf (x / Real.sqrt 2.0))

/-- `std_norm_pdf` from `black_scholes.py`:
`(1 / sqrt(2 * pi)) * exp(-0.5 * x**2)`. -/
noncomputable def std_norm_pdf (x : ℝ) : ℝ :=
  (1 / Real.sqrt (2 * Real.pi)) * Real.exp (-0.5 * x ^ 2)

/-- `d1` from `black_scholes.py`. -/
noncomputable def d1 (p : OptionParams) : ℝ :=
  (Real.log (p.S / p.K) + (p.r - p.q + 0.5 * p.sigma ^ 2) * p.T)
    / (p.sigma * Real.sqrt p.T)

/-- `d2` from `black_scholes.py`; the Python default argument
`d1_val=None` is modelled by an `Option ℝ` argument. -/
noncomputable def d2 (p : OptionParams) (d1_val : Option ℝ) : ℝ :=
  d1_val.getD (d1 p) - p.sigma * Real.sqrt p.T

/-- `disc` from `black_scholes.py`. -/
noncomputable def disc (rate T : ℝ) : ℝ := Real.exp (-rate * T)

/-- `call_price` from `black_scholes.py` (the local variables `d1v`, `d2v`
of the Python body are inlined). -/
noncomputable def call_price (p : OptionParams) : ℝ :=
  p.S * Real.exp (-p.q * p.T) * std_norm_cdf (d1 p)
    - p.K * Real.exp (-p.r * p.T) * std_norm_cdf (d2 p (some (d1 p)))

/-- `put_price` from `black_scholes.py`. -/
noncomputable def put_price (p : OptionParams) : ℝ :=
  p.K * Real.exp (-p.r * p.T) * std_norm_cdf (-(d2 p (some (d1 p))))
    - p.S * Real.exp (-p.q * p.T) * std_norm_cdf (-(d1 p))

/-- `black_scholes_price` from `black_scholes.py`:
`call_price(p) if kind == "call" else put_price(p)`. -/
noncomputable def black_scholes_price (p : OptionParams) (kind : String) : ℝ :=
  if kind = "call" then call_price p else put_price p

/-- `delta` from `black_scholes.py`. -/
noncomputable def delta (p : OptionParams) (kind : String) : ℝ :=
  if kind = "call" then Real.exp (-p.q * p.T) * std_norm_cdf (d1 p)
  else -Real.exp (-p.q * p.T) * std_norm_cdf (-(d1 p))

/-- `gamma` from `black_scholes.py`. -/
noncomputable def gamma (p : OptionParams) : ℝ :=
  Real.exp (-p.q * p.T) * std_norm_pdf (d1 p) / (p.S * p.sigma * Real.sqrt p.T)

/-- `vega` from `black_scholes.py`. -/
noncomputable def vega (p : OptionParams) : ℝ :=
  p.S * Real.exp (-p.q * p.T) * std_norm_pdf (d1 p) * Real.sqrt p.T

/-- `theta` from `black_scholes.py` (`part1 + part2 + part3`). -/
noncomputable def theta (p : OptionParams) (kind : String) : ℝ :=
  let part1 := -(p.S * Real.exp (-p.q * p.T) * std_norm_pdf (d1 p) * p.sigma)
      / (2 * Real.sqrt p.T)
  if kind = "call" then
    part1 + (-p.r * p.K * Real.exp (-p.r * p.T) * std_norm_cdf (d2 p (some (d1 p))))
      + p.q * p.S * Real.exp (-p.q * p.T) * std_norm_cdf (d1 p)
  else
    part1 + p.r * p.K * Real.exp (-p.r * p.T) * std_norm_cdf (-(d2 p (some (d1 p))))
      + (-p.q * p.S * Real.exp (-p.q * p.T) * std_norm_cdf (-(d1 p)))

/-- `rho` from `black_scholes.py` (calls `d2(p)` with the default `None`). -/
noncomputable def rho (p : OptionParams) (kind : String) : ℝ :=
  if kind = "call" then p.K * p.T * Real.exp (-p.r * p.T) * std_norm_cdf (d2 p none)
  else -p.K * p.T * Real.exp (-p.r * p.T) * std_norm_cdf (-(d2 p none))

/-! ### Spec-side definitions (refinement targets)

These follow the wording of the specification, section 4.1, for comparison
against the embedded code.  `N` ("standard normal CDF") and `n` ("standard
normal PDF") are taken in their exact mathematical form. -/

/-- Spec: `d1 = ( ln(S/K) + (r − q + σ²/2) · T ) / (σ · √T)`. -/
noncomputable def specD1 (p : OptionParams) : ℝ :=
  (Real.log (p.S / p.K) + (p.r - p.q + p.sigma ^ 2 / 2) * p.T)
    / (p.sigma * Real.sqrt p.T)

/-- Spec: `d2 = d1 − σ · √T`. -/
noncomputable def specD2 (p : OptionParams) : ℝ :=
  specD1 p - p.sigma * Real.sqrt p.T

/-- Spec: `n(x)`, the standard normal PDF, `exp(−x²/2)/√(2π)`. -/
noncomputable def specNormPdf (x : ℝ) : ℝ :=
  Real.exp (-(x ^ 2) / 2) / Real.sqrt (2 * Real.pi)

/-- Spec: `callPrice = discS·N(d1) − discK·N(d2)` with
`discS = S·exp(−q·T)`, `discK = K·exp(−r·T)`. -/
noncomputable def specCallPrice (p : OptionParams) : ℝ :=
  p.S * Real.exp (-p.q * p.T) * std_norm_cdf (specD1 p)
    - p.K * Real.exp (-p.r * p.T) * std_norm_cdf (specD2 p)

/-- Spec: `putPrice = discK·N(−d2) − discS·N(−d1)`. -/
noncomputable def specPutPrice (p : OptionParams) : ℝ :=
  p.K * Real.exp (-p.r * p.T) * std_norm_cdf (-specD2 p)
    - p.S * Real.exp (-p.q * p.T) * std_norm_cdf (-specD1 p)

/-! ### Basic bridging lemmas -/

lemma d1_eq_specD1 (p : OptionParams) : d1 p = specD1 p := by
  unfold d1 specD1; ring_nf

lemma d2_some_eq_specD2 (p : OptionParams) : d2 p (some (d1 p)) = specD2 p := by
  unfold d2 specD2
  simp [d1_eq_specD1]

lemma d2_none_eq_specD2 (p : OptionParams) : d2 p none = specD2 p := by
  unfold d2 specD2
  simp [d1_eq_specD1]

lemma std_norm_pdf_eq_specNormPdf (x : ℝ) : std_norm_pdf x = specNormPdf x := by
  unfold std_norm_pdf specNormPdf
  rw [show -0.5 * x ^ 2 = -(x ^ 2) / 2 by ring]
  ring

lemma erf_neg (x : ℝ) : erf (-x) = -erf x := by
  unfold erf
  have h2 := intervalIntegral.integral_comp_neg (a := 0) (b := -x)
    (fun t => Real.exp (-t ^ 2))
  simp only [neg_neg, neg_zero, neg_sq] at h2
  rw [h2, intervalIntegral.integral_symm]
  ring

lemma std_norm_cdf_add_neg (x : ℝ) : std_norm_cdf x + std_norm_cdf (-x) = 1 := by
  unfold std_norm_cdf
  rw [show -x / Real.sqrt 2.0 = -(x / Real.sqrt 2.0) by ring, erf_neg]
  ring

/-! ### Claim theorems: analytical pricer -/

/-- C1: for every `OptionParams` with positive `S`, `K`, `sigma`, `T`, the
analytical price equals the Black–Scholes closed form of the spec:
the call is `S·exp(−q·T)·N(d1) − K·exp(−r·T)·N(d2)` and the put is
`K·exp(−r·T)·N(−d2) − S·exp(−q·T)·N(−d1)`, with the spec's `d1` and `d2`. -/
theorem black_scholes_price_matches_spec (p : OptionParams)
    (hS : 0 < p.S) (hK : 0 < p.K) (hsigma : 0 < p.sigma) (hT : 0 < p.T) :
    black_scholes_price p "call" = specCallPrice p ∧
    black_scholes_price p "put" = specPutPrice p := by
  constructor
  · show (if ("call" : String) = "call" then call_price p else put_price p) = _
    rw [if_pos rfl]
    unfold call_price specCallPrice
    rw [d2_some_eq_specD2, d1_eq_specD1]
  · show (if ("put" : String) = "call" then call_price p else put_price p) = _
    rw [if_neg (by decide)]
    unfold put_price specPutPrice
    rw [d2_some_eq_specD2, d1_eq_specD1]

/-- C1 witness: the theorem applied at `S=K=sigma=T=1`, `r=q=0`. -/
theorem black_scholes_price_matches_spec_witness :
    black_scholes_price ⟨1, 1, 0, 0, 1, 1⟩ "call" = specCallPrice ⟨1, 1, 0, 0, 1, 1⟩ ∧
    black_scholes_price ⟨1, 1, 0, 0, 1, 1⟩ "put" = specPutPrice ⟨1, 1, 0, 0, 1, 1⟩ :=
  black_scholes_price_matches_spec ⟨1, 1, 0, 0, 1, 1⟩ one_pos one_pos one_pos one_pos

/-- C2: the five Greeks equal the spec's closed forms, for both option kinds:
`delta(call) = exp(−q·T)·N(d1)`, `delta(put) = −exp(−q·T)·N(−d1)`,
`gamma = exp(−q·T)·n(d1)/(S·σ·√T)`, `vega = S·exp(−q·T)·n(d1)·√T`,
`theta(call) = −(S·exp(−q·T)·n(d1)·σ)/(2√T) − r·K·exp(−r·T)·N(d2) + q·S·exp(−q·T)·N(d1)`,
`theta(put) = −(S·exp(−q·T)·n(d1)·σ)/(2√T) + r·K·exp(−r·T)·N(−d2) − q·S·exp(−q·T)·N(−d1)`,
`rho(call) = K·T·exp(−r·T)·N(d2)`, `rho(put) = −K·T·exp(−r·T)·N(−d2)`. -/
theorem greeks_match_spec (p : OptionParams)
    (hS : 0 < p.S) (hK : 0 < p.K) (hsigma : 0 < p.sigma) (hT : 0 < p.T) :
    delta p "call" = Real.exp (-p.q * p.T) * std_norm_cdf (specD1 p) ∧
    delta p "put" = -(Real.exp (-p.q * p.T) * std_norm_cdf (-specD1 p)) ∧
    gamma p = Real.exp (-p.q * p.T) * specNormPdf (specD1 p) / (p.S * p.sigma * Real.sqrt p.T) ∧
    vega p = p.S * Real.exp (-p.q * p.T) * specNormPdf (specD1 p) * Real.sqrt p.T ∧
    theta p "call" =
      -(p.S * Real.exp (-p.q * p.T) * specNormPdf (specD1 p) * p.sigma) / (2 * Real.sqrt p.T)
        - p.r * p.K * Real.exp (-p.r * p.T) * std_norm_cdf (specD2 p)
        + p.q * p.S * Real.exp (-p.q * p.T) * std_norm_cdf (specD1 p) ∧
    theta p "put" =
      -(p.S * Real.exp (-p.q * p.T) * specNormPdf (specD1 p) * p.sigma) / (2 * Real.sqrt p.T)
        + p.r * p.K * Real.exp (-p.r * p.T) * std_norm_cdf (-specD2 p)
        - p.q * p.S * Real.exp (-p.q * p.T) * std_norm_cdf (-specD1 p) ∧
    rho p "call" = p.K * p.T * Real.exp (-p.r * p.T) * std_norm_cdf (specD2 p) ∧
    rho p "put" = -(p.K * p.T * Real.exp (-p.r * p.T) * std_norm_cdf (-specD2 p)) := by
  refine ⟨?_, ?_, ?_, ?_, ?_, ?_, ?_, ?_⟩
  · unfold delta; rw [if_pos rfl, d1_eq_specD1]
  · unfold delta; rw [if_neg (by decide), d1_eq_specD1]; ring
  · unfold gamma; rw [d1_eq_specD1, std_norm_pdf_eq_specNormPdf]
  · unfold vega; rw [d1_eq_specD1, std_norm_pdf_eq_specNormPdf]
  · unfold theta
    rw [if_pos rfl, d2_some_eq_specD2, d1_eq_specD1, std_norm_pdf_eq_specNormPdf]
    ring
  · unfold theta
    rw [if_neg (by decide), d2_some_eq_specD2, d1_eq_specD1, std_norm_pdf_eq_specNormPdf]
    ring
  · unfold rho; rw [if_pos rfl, d2_none_eq_specD2]
  · unfold rho; rw [if_neg (by decide), d2_none_eq_specD2]; ring

/-- C2 witness: the theorem applied at `S=K=sigma=T=1`, `r=q=0`
(first conjunct displayed). -/
theorem greeks_match_spec_witness :
    delta ⟨1, 1, 0, 0, 1, 1⟩ "call"
      = Real.exp (-(0:ℝ) * 1) * std_norm_cdf (specD1 ⟨1, 1, 0, 0, 1, 1⟩) :=
  (greeks_match_spec ⟨1, 1, 0, 0, 1, 1⟩ one_pos one_pos one_pos one_pos).1

/-- C7: put–call parity: for every `OptionParams` with positive `S`, `K`,
`sigma`, `T`, `call_price − put_price = S·exp(−qT) − K·exp(−rT)` exactly,
over real arithmetic. -/
theorem put_call_parity (p : OptionParams)
    (hS : 0 < p.S) (hK : 0 < p.K) (hsigma : 0 < p.sigma) (hT : 0 < p.T) :
    call_price p - put_price p
      = p.S * Real.exp (-p.q * p.T) - p.K * Real.exp (-p.r * p.T) := by
  unfold call_price put_price
  have h1 := std_norm_cdf_add_neg (d1 p)
  have h2 := std_norm_cdf_add_neg (d2 p (some (d1 p)))
  linear_combination (p.S * Real.exp (-p.q * p.T)) * h1
    - (p.K * Real.exp (-p.r * p.T)) * h2

/-- C7 witness: parity at `S=K=sigma=T=1`, `r=q=0`. -/
theorem put_call_parity_witness :
    call_price ⟨1, 1, 0, 0, 1, 1⟩ - put_price ⟨1, 1, 0, 0, 1, 1⟩
      = 1 * Real.exp (-(0:ℝ) * 1) - 1 * Real.exp (-(0:ℝ) * 1) :=
  put_call_parity ⟨1, 1, 0, 0, 1, 1⟩ one_pos one_pos one_pos one_pos

/-! ### Monte Carlo (`monte_carlo.py`)

NumPy's legacy global generator (`np.random.seed` / `np.random.randn`) is a
process-wide mutable state.  It is modelled as `NpGlobalState`: the seed it
was last seeded with and the position reached in that seed's stream.  The
standard-normal stream produced by the Mersenne-Twister/Box–Muller pipeline
is abstracted as a function `randn : ℕ → ℕ → ℝ` (seed, index ↦ draw), a
parameter of every function that draws. -/

/-- The state of NumPy's process-wide legacy generator. -/
structure NpGlobalState where
  seed : ℕ
  pos : ℕ
deriving DecidableEq

/-- `np.random.seed(s)`: reset the global generator to seed `s`, start of
stream.  The previous state is discarded. -/
def npSeed (s : ℕ) (_ : NpGlobalState) : NpGlobalState := ⟨s, 0⟩

/-- `np.random.randn(n)`: draw `n` standard normals from the global stream,
advancing the global position. -/
noncomputable def npRandn (randn : ℕ → ℕ → ℝ) (n : ℕ) (st : NpGlobalState) :
    List ℝ × NpGlobalState :=
  ((List.range n).map (fun i => randn st.seed (st.pos + i)), ⟨st.seed, st.pos + n⟩)

/-- `simulate_paths` from `monte_carlo.py`:
seeds the global generator, draws `n_sims` normals `Z`, and returns
`S * exp(drift + diffusion)` with `drift = (r − q − 0.5σ²)T` and
`diffusion = σ√T · Z`, together with the global state it leaves behind. -/
noncomputable def simulate_paths (randn : ℕ → ℕ → ℝ) (p : OptionParams)
    (n_sims : ℕ) (seed : ℕ) (st : NpGlobalState) : List ℝ × NpGlobalState :=
  let st1 := npSeed seed st
  let Zst := npRandn randn n_sims st1
  let drift := (p.r - p.q - 0.5 * p.sigma ^ 2) * p.T
  (Zst.1.map (fun z => p.S * Real.exp (drift + p.sigma * Real.sqrt p.T * z)), Zst.2)

/-- `np.mean`: arithmetic mean of a list. -/
noncomputable def np_mean (xs : List ℝ) : ℝ := xs.sum / xs.length

/-- `np.std` with its default `ddof=0`: the population standard deviation
`sqrt(mean((x − mean(x))²))`. -/
noncomputable def np_std (xs : List ℝ) : ℝ :=
  Real.sqrt (((xs.map (fun x => (x - np_mean xs) ^ 2)).sum) / xs.length)

/-- The intermediate `discounted_payoffs` list of `monte_carlo_price`:
`exp(−r·T) * max(ST − K, 0)` per sample for a call, `max(K − ST, 0)` for
anything else. -/
noncomputable def mc_discounted (randn : ℕ → ℕ → ℝ) (p : OptionParams)
    (kind : String) (n_sims : ℕ) (seed : ℕ) (st : NpGlobalState) : List ℝ :=
  let ST := (simulate_paths randn p n_sims seed st).1
  let payoffs := if kind = "call" then ST.map (fun s => max (s - p.K) 0)
    else ST.map (fun s => max (p.K - s) 0)
  payoffs.map (fun x => Real.exp (-p.r * p.T) * x)

/-- `monte_carlo_price` from `monte_carlo.py`: returns
`(np.mean(discounted), np.std(discounted)/sqrt(n_sims))` and the global
generator state it leaves behind. -/
noncomputable def monte_carlo_price (randn : ℕ → ℕ → ℝ) (p : OptionParams)
    (kind : String) (n_sims : ℕ) (seed : ℕ) (st : NpGlobalState) :
    (ℝ × ℝ) × NpGlobalState :=
  let discounted := mc_discounted randn p kind n_sims seed st
  ((np_mean discounted, np_std discounted / Real.sqrt n_sims),
    (simulate_paths randn p n_sims seed st).2)

/-- Spec: `sampleStdDev`, the Bessel-corrected sample standard deviation
`sqrt( Σ (x − mean)² / (n − 1) )`. -/
noncomputable def sampleStdDev (xs : List ℝ) : ℝ :=
  Real.sqrt (((xs.map (fun x => (x - np_mean xs) ^ 2)).sum) / ((xs.length : ℝ) - 1))

/-! ### Convergence comparison (`stats_analysis.py`) -/

/-- The `for n in n_sims_list` loop of `compare_mc_vs_bs`: one
`monte_carlo_price` call per entry (Python's default `seed=42`), the global
generator state threaded through in call order, prices and errors collected
in input order. -/
noncomputable def mcLoop (randn : ℕ → ℕ → ℝ) (p : OptionParams) (kind : String) :
    List ℕ → NpGlobalState → (List ℝ × List ℝ) × NpGlobalState
  | [], st => (([], []), st)
  | n :: rest, st =>
      let res := monte_carlo_price randn p kind n 42 st
      let tail := mcLoop randn p kind rest res.2
      ((res.1.1 :: tail.1.1, res.1.2 :: tail.1.2), tail.2)

/-- `compare_mc_vs_bs` from `stats_analysis.py`: the analytical price, the
Monte Carlo prices and standard errors per entry of `n_sims_list`, and the
biases `mc_prices − bs_price`. -/
noncomputable def compare_mc_vs_bs (randn : ℕ → ℕ → ℝ) (p : OptionParams)
    (kind : String) (n_sims_list : List ℕ) (st : NpGlobalState) :
    (ℝ × List ℝ × List ℝ × List ℝ) × NpGlobalState :=
  let bs_price := black_scholes_price p kind
  let lp := mcLoop randn p kind n_sims_list st
  ((bs_price, lp.1.1, lp.1.2, lp.1.1.map (fun x => x - bs_price)), lp.2)

/-! ### Python error semantics for the analytical pricer

`black_scholes.py` performs no input validation, so invalid parameters
surface as the exceptions Python's `math` primitives raise: `ValueError`
("math domain error") from `log`/`sqrt`, `ZeroDivisionError` from `/`.
The exception classes named by the specification are included as
constructors so that the specification's error claims are statable; no
code in the repository defines or raises them. -/

inductive PyError where
  | valueError
  | zeroDivisionError
  | invalidParameterError
  | unsupportedOptionKindError
deriving DecidableEq

/-- Python float division: raises `ZeroDivisionError` on a zero divisor. -/
noncomputable def pyDiv (a b : ℝ) : Except PyError ℝ :=
  if b = 0 then .error .zeroDivisionError else .ok (a / b)

/-- Python `math.log`: raises `ValueError` (math domain error) on a
non-positive argument. -/
noncomputable def pyLog (x : ℝ) : Except PyError ℝ :=
  if x ≤ 0 then .error .valueError else .ok (Real.log x)

/-- Python `math.sqrt`: raises `ValueError` (math domain error) on a
negative argument. -/
noncomputable def pySqrt (x : ℝ) : Except PyError ℝ :=
  if x < 0 then .error .valueError else .ok (Real.sqrt x)

/-- `d1` with Python error semantics: `S/K`, then `log`, then `sqrt(T)`,
then the division by `σ·√T`, in Python's evaluation order. -/
noncomputable def d1E (p : OptionParams) : Except PyError ℝ := do
  let ratio ← pyDiv p.S p.K
  let l ← pyLog ratio
  let s ← pySqrt p.T
  pyDiv (l + (p.r - p.q + 0.5 * p.sigma ^ 2) * p.T) (p.sigma * s)

/-- `d2` with Python error semantics. -/
noncomputable def d2E (p : OptionParams) (d1_val : Option ℝ) : Except PyError ℝ := do
  let d1v ← match d1_val with
    | some v => pure v
    | none => d1E p
  let s ← pySqrt p.T
  pure (d1v - p.sigma * s)

/-- `call_price` with Python error semantics. -/
noncomputable def call_priceE (p : OptionParams) : Except PyError ℝ := do
  let d1v ← d1E p
  let d2v ← d2E p (some d1v)
  pure (p.S * Real.exp (-p.q * p.T) * std_norm_cdf d1v
    - p.K * Real.exp (-p.r * p.T) * std_norm_cdf d2v)

/-- `put_price` with Python error semantics. -/
noncomputable def put_priceE (p : OptionParams) : Except PyError ℝ := do
  let d1v ← d1E p
  let d2v ← d2E p (some d1v)
  pure (p.K * Real.exp (-p.r * p.T) * std_norm_cdf (-d2v)
    - p.S * Real.exp (-p.q * p.T) * std_norm_cdf (-d1v))

/-- `black_scholes_price` with Python error semantics. -/
noncomputable def black_scholes_priceE (p : OptionParams) (kind : String) :
    Except PyError ℝ :=
  if kind = "call" then call_priceE p else put_priceE p

/-! ### Claim theorems: Monte Carlo state and estimator -/

/-- C8: reproducibility: the value returned by `monte_carlo_price` is fully
determined by `(params, kind, n_sims, seed)` for a fixed generator stream —
two calls with identical arguments return identical `(price, standardError)`
pairs regardless of the global generator states they start from (the call
re-seeds the generator). -/
theorem monte_carlo_price_reproducible (randn : ℕ → ℕ → ℝ) (p : OptionParams)
    (kind : String) (n_sims seed : ℕ) (st1 st2 : NpGlobalState) :
    (monte_carlo_price randn p kind n_sims seed st1).1
      = (monte_carlo_price randn p kind n_sims seed st2).1 := rfl

/-- C6 (code bug): `simulate_paths` mutates state outside the call: it
re-seeds NumPy's process-wide generator, so the global state after the call
differs from the state before it (here `(0,0) ↦ (1,2)`), contradicting the
requirement that a fresh generator be scoped to the call. -/
theorem simulate_paths_mutates_global_state :
    (simulate_paths (fun _ _ => 0) ⟨100, 100, 5/100, 2/100, 2/10, 1⟩ 2 1 ⟨0, 0⟩).2
        = ⟨1, 2⟩ ∧
    (⟨1, 2⟩ : NpGlobalState) ≠ ⟨0, 0⟩ := by
  exact ⟨rfl, by decide⟩

/-! ### Standard error: `np.std` (population) versus the spec's Bessel-corrected
sample standard deviation.

Concrete scenario for the counterexample: `S=1, K=1, r=1/2, q=0, sigma=1, T=1`
makes the GBM drift zero, and a stream delivering the draws `0` and `log 3`
yields terminal prices `1` and `3`, hence call payoffs `0` and `2`. -/

/-- Concrete parameters with zero GBM drift. -/
noncomputable def p0 : OptionParams := ⟨1, 1, 1/2, 0, 1, 1⟩

/-- A concrete standard-normal stream: first draw `0`, every later draw
`log 3`. -/
noncomputable def randn0 : ℕ → ℕ → ℝ := fun _ i => if i = 0 then 0 else Real.log 3

lemma mc_discounted_p0 :
    mc_discounted randn0 p0 "call" 2 7 ⟨0, 0⟩ = [0, Real.exp (-(1/2 : ℝ)) * 2] := by
  have hr : List.range 2 = [0, 1] := rfl
  unfold mc_discounted simulate_paths npRandn npSeed randn0 p0
  norm_num [hr, Real.sqrt_one, Real.exp_log]

lemma np_std_pair (x : ℝ) (hx : 0 ≤ x) : np_std [0, x * 2] = x := by
  unfold np_std np_mean
  have h : ((([(0:ℝ), x*2].map
        (fun y => (y - [(0:ℝ), x*2].sum / (([(0:ℝ), x*2].length : ℕ) : ℝ)) ^ 2)).sum)
      / (([(0:ℝ), x*2].length : ℕ) : ℝ)) = x ^ 2 := by
    simp [List.sum_cons]
    ring
  rw [h, Real.sqrt_sq hx]

lemma sampleStdDev_pair (x : ℝ) (hx : 0 ≤ x) :
    sampleStdDev [0, x * 2] = Real.sqrt 2 * x := by
  unfold sampleStdDev np_mean
  have h : ((([(0:ℝ), x*2].map
        (fun y => (y - [(0:ℝ), x*2].sum / (([(0:ℝ), x*2].length : ℕ) : ℝ)) ^ 2)).sum)
      / ((([(0:ℝ), x*2].length : ℕ) : ℝ) - 1)) = 2 * x ^ 2 := by
    simp [List.sum_cons]
    ring
  rw [h, Real.sqrt_mul (by norm_num), Real.sqrt_sq hx]

/-- C3 counterexample: at a concrete two-sample input whose discounted
payoffs are `0` and `2·exp(−1/2)`, the standard error returned by
`monte_carlo_price` differs from `sampleStdDev(discounted)/√sampleCount`:
the code's `np.std` divides by `n`, not Bessel's `n − 1`. -/
theorem mc_stderr_not_bessel_corrected :
    ((monte_carlo_price randn0 p0 "call" 2 7 ⟨0, 0⟩).1).2
      ≠ sampleStdDev (mc_discounted randn0 p0 "call" 2 7 ⟨0, 0⟩) / Real.sqrt 2 := by
  have hlhs : ((monte_carlo_price randn0 p0 "call" 2 7 ⟨0, 0⟩).1).2
      = np_std (mc_discounted randn0 p0 "call" 2 7 ⟨0, 0⟩) / Real.sqrt ((2:ℕ) : ℝ) := rfl
  have hx : (0:ℝ) ≤ Real.exp (-(1/2 : ℝ)) := (Real.exp_pos _).le
  rw [hlhs, mc_discounted_p0, np_std_pair _ hx, sampleStdDev_pair _ hx, Nat.cast_ofNat]
  have hs2 : (1:ℝ) < Real.sqrt 2 := (Real.lt_sqrt (by norm_num)).mpr (by norm_num)
  have hne : Real.sqrt 2 ≠ 0 := by positivity
  rw [mul_comm, mul_div_assoc, div_self hne, mul_one]
  exact ne_of_lt (div_lt_self (Real.exp_pos _) hs2)

/-- Spec (amended): the population standard deviation,
`sqrt( Σ (x − mean)² / n )` with `mean = Σ x / n`. -/
noncomputable def populationStdDev (xs : List ℝ) : ℝ :=
  Real.sqrt (((xs.map (fun x => (x - xs.sum / xs.length) ^ 2)).sum) / xs.length)

/-- C3 (amended): `monte_carlo_price` returns as price the mean of the
`sampleCount` discounted payoffs, and as standard error the population
(`1/n`-normalized) standard deviation of the discounted payoffs divided by
`√sampleCount`. -/
theorem monte_carlo_price_mean_and_population_stderr (randn : ℕ → ℕ → ℝ)
    (p : OptionParams) (kind : String) (n_sims seed : ℕ) (st : NpGlobalState)
    (hn : 0 < n_sims) :
    (mc_discounted randn p kind n_sims seed st).length = n_sims ∧
    ((monte_carlo_price randn p kind n_sims seed st).1).1
      = (mc_discounted randn p kind n_sims seed st).sum / (n_sims : ℝ) ∧
    ((monte_carlo_price randn p kind n_sims seed st).1).2
      = populationStdDev (mc_discounted randn p kind n_sims seed st)
          / Real.sqrt (n_sims : ℝ) := by
  have hlen : (mc_discounted randn p kind n_sims seed st).length = n_sims := by
    unfold mc_discounted simulate_paths npRandn npSeed
    split <;> simp
  refine ⟨hlen, ?_, ?_⟩
  · show np_mean (mc_discounted randn p kind n_sims seed st) = _
    unfold np_mean
    rw [hlen]
  · show np_std (mc_discounted randn p kind n_sims seed st) / Real.sqrt ((n_sims : ℕ) : ℝ)
      = _
    unfold np_std np_mean populationStdDev
    rfl

/-- C3 (amended) witness: the theorem applied at the concrete two-sample
scenario. -/
theorem monte_carlo_price_mean_and_population_stderr_witness :
    (mc_discounted randn0 p0 "call" 2 7 ⟨0, 0⟩).length = 2 ∧
    ((monte_carlo_price randn0 p0 "call" 2 7 ⟨0, 0⟩).1).1
      = (mc_discounted randn0 p0 "call" 2 7 ⟨0, 0⟩).sum / ((2 : ℕ) : ℝ) ∧
    ((monte_carlo_price randn0 p0 "call" 2 7 ⟨0, 0⟩).1).2
      = populationStdDev (mc_discounted randn0 p0 "call" 2 7 ⟨0, 0⟩)
          / Real.sqrt ((2 : ℕ) : ℝ) :=
  monte_carlo_price_mean_and_population_stderr randn0 p0 "call" 2 7 ⟨0, 0⟩ (by decide)

/-! ### Claim theorems: error handling -/

lemma ok_bind {α β : Type} (a : α) (f : α → Except PyError β) :
    (Except.ok a : Except PyError α) >>= f = f a := rfl

lemma error_bind {α β : Type} (e : PyError) (f : α → Except PyError β) :
    (Except.error e : Except PyError α) >>= f = Except.error e := rfl

lemma d1E_ok (p : OptionParams)
    (hS : 0 < p.S) (hK : 0 < p.K) (hsig : p.sigma ≠ 0) (hT : 0 < p.T) :
    d1E p = .ok (d1 p) := by
  have h1 : p.K ≠ 0 := ne_of_gt hK
  have h2 : ¬ (p.S / p.K ≤ 0) := not_le.mpr (div_pos hS hK)
  have h3 : ¬ (p.T < 0) := not_lt.mpr hT.le
  have h4 : p.sigma * Real.sqrt p.T ≠ 0 :=
    mul_ne_zero hsig (Real.sqrt_ne_zero'.mpr hT)
  simp only [d1E, pyDiv, pyLog, pySqrt, if_neg h1, if_neg h2, if_neg h3, if_neg h4,
    ok_bind, d1]

lemma d1E_zero_div (p : OptionParams)
    (hS : 0 < p.S) (hK : 0 < p.K) (hT : 0 < p.T) (hsig : p.sigma = 0) :
    d1E p = .error .zeroDivisionError := by
  have h1 : p.K ≠ 0 := ne_of_gt hK
  have h2 : ¬ (p.S / p.K ≤ 0) := not_le.mpr (div_pos hS hK)
  have h3 : ¬ (p.T < 0) := not_lt.mpr hT.le
  have h4 : p.sigma * Real.sqrt p.T = 0 := by rw [hsig, zero_mul]
  simp only [d1E, pyDiv, pyLog, pySqrt, if_neg h1, if_neg h2, if_neg h3, if_pos h4,
    ok_bind]

lemma d2E_some_ok (p : OptionParams) (v : ℝ) (hT : 0 < p.T) :
    d2E p (some v) = .ok (v - p.sigma * Real.sqrt p.T) := by
  have h3 : ¬ (p.T < 0) := not_lt.mpr hT.le
  simp only [d2E, pySqrt, if_neg h3, ok_bind]
  rfl

lemma call_priceE_ok (p : OptionParams)
    (hS : 0 < p.S) (hK : 0 < p.K) (hsig : p.sigma ≠ 0) (hT : 0 < p.T) :
    call_priceE p = .ok (call_price p) := by
  simp only [call_priceE, d1E_ok p hS hK hsig hT, ok_bind, d2E_some_ok p _ hT]
  simp only [call_price, d2, Option.getD]
  rfl

lemma put_priceE_ok (p : OptionParams)
    (hS : 0 < p.S) (hK : 0 < p.K) (hsig : p.sigma ≠ 0) (hT : 0 < p.T) :
    put_priceE p = .ok (put_price p) := by
  simp only [put_priceE, d1E_ok p hS hK hsig hT, ok_bind, d2E_some_ok p _ hT]
  simp only [put_price, d2, Option.getD]
  rfl

lemma black_scholes_priceE_ok (p : OptionParams)
    (hS : 0 < p.S) (hK : 0 < p.K) (hsig : p.sigma ≠ 0) (hT : 0 < p.T)
    (kind : String) :
    black_scholes_priceE p kind = .ok (black_scholes_price p kind) := by
  unfold black_scholes_priceE black_scholes_price
  split_ifs
  · exact call_priceE_ok p hS hK hsig hT
  · exact put_priceE_ok p hS hK hsig hT

lemma black_scholes_priceE_zero_div (p : OptionParams)
    (hS : 0 < p.S) (hK : 0 < p.K) (hT : 0 < p.T) (hsig : p.sigma = 0)
    (kind : String) :
    black_scholes_priceE p kind = .error .zeroDivisionError := by
  have hd := d1E_zero_div p hS hK hT hsig
  unfold black_scholes_priceE
  split_ifs
  · simp only [call_priceE, hd, error_bind]
  · simp only [put_priceE, hd, error_bind]

/-- C4 counterexample: with `sigma = 0` and every other parameter valid,
`black_scholes_price` raises the generic `ZeroDivisionError` from the
division inside `d1` — not an `InvalidParameterError` (no such class exists
in the code). -/
theorem invalid_sigma_raises_generic_zero_division :
    black_scholes_priceE ⟨1, 1, 0, 0, 0, 1⟩ "call" = .error .zeroDivisionError ∧
    PyError.zeroDivisionError ≠ PyError.invalidParameterError :=
  ⟨black_scholes_priceE_zero_div ⟨1, 1, 0, 0, 0, 1⟩ one_pos one_pos one_pos rfl "call",
   by decide⟩

/-- C4 (amended): the pricing code performs no eager parameter validation
and defines no `InvalidParameterError`.  With `S, K, T > 0`: if `sigma = 0`
every analytical price call raises the generic `ZeroDivisionError` from the
division in `d1`; if `sigma ≠ 0` (including `sigma < 0`) the call raises
nothing and returns the price value. -/
theorem no_validation_generic_errors (p : OptionParams)
    (hS : 0 < p.S) (hK : 0 < p.K) (hT : 0 < p.T) :
    (p.sigma = 0 → ∀ kind, black_scholes_priceE p kind = .error .zeroDivisionError) ∧
    (p.sigma ≠ 0 → ∀ kind,
      black_scholes_priceE p kind = .ok (black_scholes_price p kind)) :=
  ⟨fun h kind => black_scholes_priceE_zero_div p hS hK hT h kind,
   fun h kind => black_scholes_priceE_ok p hS hK h hT kind⟩

/-- C4 (amended) witness: the theorem applied at `S=K=T=1`, `sigma=0`. -/
theorem no_validation_generic_errors_witness :
    black_scholes_priceE ⟨1, 1, 0, 0, 0, 1⟩ "put" = .error .zeroDivisionError :=
  (no_validation_generic_errors ⟨1, 1, 0, 0, 0, 1⟩ one_pos one_pos one_pos).1 rfl "put"

/-- C5 counterexample: a valid `OptionParams` and the unrecognized kind
`"banana"` make `black_scholes_price` return the put value — it does not
fail, in particular not with `UnsupportedOptionKindError` (no such class
exists in the code). -/
theorem banana_kind_returns_put_value :
    black_scholes_priceE ⟨1, 1, 0, 0, 1, 1⟩ "banana"
      = .ok (put_price ⟨1, 1, 0, 0, 1, 1⟩) ∧
    (Except.ok (put_price ⟨1, 1, 0, 0, 1, 1⟩) : Except PyError ℝ)
      ≠ .error .unsupportedOptionKindError := by
  constructor
  · have h := black_scholes_priceE_ok ⟨1, 1, 0, 0, 1, 1⟩
      one_pos one_pos one_ne_zero one_pos "banana"
    rw [h]
    unfold black_scholes_price
    rw [if_neg (by decide)]
  · intro h
    exact Except.noConfusion h

/-- C5 (amended): with any kind other than `"call"` — recognized or not —
the pricing operations do not fail with `UnsupportedOptionKindError`; they
take the put branch: `black_scholes_price` returns the put price and
`monte_carlo_price` prices the put payoff. -/
theorem unrecognized_kind_priced_as_put (p : OptionParams) (kind : String)
    (hkind : kind ≠ "call") (randn : ℕ → ℕ → ℝ) (n_sims seed : ℕ)
    (st : NpGlobalState) :
    black_scholes_priceE p kind = put_priceE p ∧
    black_scholes_price p kind = put_price p ∧
    monte_carlo_price randn p kind n_sims seed st
      = monte_carlo_price randn p "put" n_sims seed st := by
  have hput : ¬ (("put" : String) = "call") := by decide
  refine ⟨?_, ?_, ?_⟩
  · unfold black_scholes_priceE; rw [if_neg hkind]
  · unfold black_scholes_price; rw [if_neg hkind]
  · simp only [monte_carlo_price, mc_discounted, if_neg hkind, if_neg hput]

/-- C5 (amended) witness: the theorem applied at kind `"banana"` with
concrete parameters. -/
theorem unrecognized_kind_priced_as_put_witness :
    black_scholes_priceE ⟨1, 1, 0, 0, 1, 1⟩ "banana" = put_priceE ⟨1, 1, 0, 0, 1, 1⟩ :=
  (unrecognized_kind_priced_as_put ⟨1, 1, 0, 0, 1, 1⟩ "banana" (by decide)
    (fun _ _ => 0) 1 0 ⟨0, 0⟩).1

/-- C10: every kind string other than `"call"` — e.g. `"banana"` — is
treated exactly as `"put"` by `black_scholes_price` (plain and with Python
error semantics), `delta`, `theta`, `rho` and `monte_carlo_price`; nothing
fails. -/
theorem non_call_kind_behaves_as_put (p : OptionParams) (kind : String)
    (hkind : kind ≠ "call") (randn : ℕ → ℕ → ℝ) (n_sims seed : ℕ)
    (st : NpGlobalState) :
    black_scholes_price p kind = black_scholes_price p "put" ∧
    black_scholes_priceE p kind = black_scholes_priceE p "put" ∧
    delta p kind = delta p "put" ∧
    theta p kind = theta p "put" ∧
    rho p kind = rho p "put" ∧
    monte_carlo_price randn p kind n_sims seed st
      = monte_carlo_price randn p "put" n_sims seed st := by
  have hput : ¬ (("put" : String) = "call") := by decide
  refine ⟨?_, ?_, ?_, ?_, ?_, ?_⟩
  · simp only [black_scholes_price, if_neg hkind, if_neg hput]
  · simp only [black_scholes_priceE, if_neg hkind, if_neg hput]
  · simp only [delta, if_neg hkind, if_neg hput]
  · simp only [theta, if_neg hkind, if_neg hput]
  · simp only [rho, if_neg hkind, if_neg hput]
  · simp only [monte_carlo_price, mc_discounted, if_neg hkind, if_neg hput]

/-- C10 witness: the theorem applied at kind `"banana"` with concrete
parameters (first conjunct displayed). -/
theorem non_call_kind_behaves_as_put_witness :
    black_scholes_price ⟨1, 1, 0, 0, 1, 1⟩ "banana"
      = black_scholes_price ⟨1, 1, 0, 0, 1, 1⟩ "put" :=
  (non_call_kind_behaves_as_put ⟨1, 1, 0, 0, 1, 1⟩ "banana" (by decide)
    (fun _ _ => 0) 1 0 ⟨0, 0⟩).1

/-! ### Claim theorems: convergence comparison -/

lemma mcLoop_eq_map (randn : ℕ → ℕ → ℝ) (p : OptionParams) (kind : String)
    (ns : List ℕ) (st : NpGlobalState) :
    (mcLoop randn p kind ns st).1.1
      = ns.map (fun n => (monte_carlo_price randn p kind n 42 st).1.1) ∧
    (mcLoop randn p kind ns st).1.2
      = ns.map (fun n => (monte_carlo_price randn p kind n 42 st).1.2) := by
  induction ns generalizing st with
  | nil => exact ⟨rfl, rfl⟩
  | cons n rest ih =>
    have h := ih (monte_carlo_price randn p kind n 42 st).2
    constructor
    · show (monte_carlo_price randn p kind n 42 st).1.1
        :: (mcLoop randn p kind rest (monte_carlo_price randn p kind n 42 st).2).1.1
        = _
      rw [List.map_cons, h.1]
      rfl
    · show (monte_carlo_price randn p kind n 42 st).1.2
        :: (mcLoop randn p kind rest (monte_carlo_price randn p kind n 42 st).2).1.2
        = _
      rw [List.map_cons, h.2]
      rfl

/-- C9: `compare_mc_vs_bs` returns the analytical price as first component,
and — aligned with the input sample-count list, in its order and of its
length — the Monte Carlo price, the Monte Carlo standard error, and the
bias `mcPrice − analyticalPrice` for each requested sample count (the seed
is the source's fixed default 42). -/
theorem compare_mc_vs_bs_correct (randn : ℕ → ℕ → ℝ) (p : OptionParams)
    (kind : String) (ns : List ℕ) (st : NpGlobalState) :
    ((compare_mc_vs_bs randn p kind ns st).1).1 = black_scholes_price p kind ∧
    ((compare_mc_vs_bs randn p kind ns st).1).2.1.length = ns.length ∧
    ((compare_mc_vs_bs randn p kind ns st).1).2.2.1.length = ns.length ∧
    ((compare_mc_vs_bs randn p kind ns st).1).2.2.2.length = ns.length ∧
    ∀ i n, ns.get? i = some n →
      ((compare_mc_vs_bs randn p kind ns st).1).2.1.get? i
          = some ((monte_carlo_price randn p kind n 42 st).1.1) ∧
      ((compare_mc_vs_bs randn p kind ns st).1).2.2.1.get? i
          = some ((monte_carlo_price randn p kind n 42 st).1.2) ∧
      ((compare_mc_vs_bs randn p kind ns st).1).2.2.2.get? i
          = some ((monte_carlo_price randn p kind n 42 st).1.1
              - black_scholes_price p kind) := by
  have hm := mcLoop_eq_map randn p kind ns st
  have hp : ((compare_mc_vs_bs randn p kind ns st).1).2.1
      = (mcLoop randn p kind ns st).1.1 := rfl
  have he : ((compare_mc_vs_bs randn p kind ns st).1).2.2.1
      = (mcLoop randn p kind ns st).1.2 := rfl
  have hb : ((compare_mc_vs_bs randn p kind ns st).1).2.2.2
      = (mcLoop randn p kind ns st).1.1.map
          (fun x => x - black_scholes_price p kind) := rfl
  refine ⟨rfl, ?_, ?_, ?_, ?_⟩
  · rw [hp, hm.1, List.length_map]
  · rw [he, hm.2, List.length_map]
  · rw [hb, List.length_map, hm.1, List.length_map]
  · intro i n hi
    refine ⟨?_, ?_, ?_⟩
    · rw [hp, hm.1, List.get?_map, hi]; rfl
    · rw [he, hm.2, List.get?_map, hi]; rfl
    · rw [hb, hm.1, List.get?_map, List.get?_map, hi]; rfl

/-- C9 witness: the theorem applied at the list `[1, 2]`, index 1 (the bias
clause displayed). -/
theorem compare_mc_vs_bs_correct_witness :
    ((compare_mc_vs_bs (fun _ _ => 0) ⟨1, 1, 0, 0, 1, 1⟩ "call" [1, 2] ⟨0, 0⟩).1).2.2.2.get? 1
      = some ((monte_carlo_price (fun _ _ => 0) ⟨1, 1, 0, 0, 1, 1⟩ "call" 2 42 ⟨0, 0⟩).1.1
          - black_scholes_price ⟨1, 1, 0, 0, 1, 1⟩ "call") :=
  ((compare_mc_vs_bs_correct (fun _ _ => 0) ⟨1, 1, 0, 0, 1, 1⟩ "call" [1, 2] ⟨0, 0⟩).2.2.2.2
    1 2 rfl).2.2

end Pricer
